import Mathlib

/-!
Verification development for the resume/JD matching route of the
AI-Powered Applicant Tracking System repository.

The code under study is the Next.js `POST /api/match` route
(`frontend/app/upload-resumes/page.tsx`, second document in the file): it
looks up a job description row, fetches all resume rows, asks the Python
backend for matches, and on backend failure falls back to a frontend
computation using `cosineSimilarity` from the external `ai` package.
Results are persisted by deleting all `match_results` rows for the job
description and inserting the fresh set.

JavaScript semantics modelled explicitly:
  - `x || d` on a nullable number/string/array (falsy: null, 0, empty
    string; arrays are always truthy);
  - `Math.round` rounds half toward positive infinity;
  - `Array.prototype.sort` with a numeric comparator is a stable sort;
  - `String.prototype.includes` is substring containment;
  - `toLowerCase` is modelled by a character-wise `Char.toLower` map.

Database ids (UUIDs) are modelled as `Nat`. Embedding vectors are
`List ℚ`. The external `cosineSimilarity` function from the `ai` package
is not repository code; it is modelled as a function parameter `cosSim`
(the spec states its values lie in `[-1, 1]`).
-/

namespace ATS

/-- JavaScript `x || d` for a nullable integer: `null` and `0` are falsy.
Since the default used by the route is `0`, this coincides with `getD`. -/
def jsOrInt (o : Option Int) (d : Int) : Int :=
  match o with
  | none => d
  | some n => if n = 0 then d else n

/-- JavaScript `x || d` for a nullable string: `null` and `""` are falsy. -/
def jsOrStr (o : Option String) (d : String) : String :=
  match o with
  | none => d
  | some s => if s = "" then d else s

/-- JavaScript `x || d` for a nullable array: only `null` is falsy
(an empty array is truthy, but it also defaults to the empty list here,
so `getD` is faithful for the `[]` default used by the route). -/
def jsOrList (o : Option (List String)) (d : List String) : List String :=
  o.getD d

/-- JavaScript `Math.round`: rounds to the nearest integer, halves toward
positive infinity, i.e. `⌊x + 1/2⌋`. -/
def jsRound (q : ℚ) : ℤ :=
  Int.floor (q + 1 / 2)

/-- Whether `needle` occurs at the start of `hay` (character lists). -/
def charsStart : List Char → List Char → Bool
  | [], _ => true
  | _ :: _, [] => false
  | a :: as, b :: bs => a == b && charsStart as bs

/-- Whether `needle` occurs somewhere inside `hay` (character lists). -/
def charsContain (needle : List Char) : List Char → Bool
  | [] => charsStart needle []
  | c :: t => charsStart needle (c :: t) || charsContain needle t

/-- JavaScript `a.includes(b)`: `b` is a substring of `a`. -/
def strIncludes (a b : String) : Bool :=
  charsContain b.toList a.toList

/-- JavaScript `toLowerCase`, as a character-wise map (the skill strings in
question are ASCII). -/
def jsToLower (s : String) : String :=
  String.mk (s.data.map Char.toLower)

/-- A `resumes` table row. Display-only columns that the match route never
reads (`parsed_data`, timestamps) are omitted. -/
structure Resume where
  id : Nat
  file_name : String
  candidate_name : Option String
  email : Option String
  phone : Option String
  experience_years : Option Int
  skills : Option (List String)
  education : Option String
  raw_text : String
  embedding : Option (List ℚ)
  deriving Repr, DecidableEq

/-- A `job_descriptions` table row. Metadata columns the route never reads
(`title`, `requirements`, `experience_level`, `location`, `salary_range`,
timestamps) are omitted; the route reads only `id`, `skills` and
`embedding`. -/
structure JobDescription where
  id : Nat
  skills : Option (List String)
  embedding : Option (List ℚ)
  deriving Repr, DecidableEq

/-- A `match_results` table row (columns written by the route). -/
structure MatchRow where
  job_description_id : Nat
  resume_id : Nat
  similarity_score : ℚ
  matched_skills : List String
  highlights : List String
  deriving Repr, DecidableEq

/-- The database state visible to the route. -/
structure Db where
  job_descriptions : List JobDescription
  resumes : List Resume
  match_results : List MatchRow
  deriving Repr, DecidableEq

/-- The predicate of the `matchedSkills` filter: some JD skill contains
the resume skill, or the resume skill contains the JD skill, both
case-insensitively. -/
def skillMatches (jdSkills : List String) (skill : String) : Bool :=
  jdSkills.any fun jdSkill =>
    strIncludes (jsToLower jdSkill) (jsToLower skill) ||
    strIncludes (jsToLower skill) (jsToLower jdSkill)

/-- `resumeSkills.filter(skill => jdSkills.some(...))` from the route:
keeps the resume skills matched by some JD skill, in resume order. -/
def matchedSkills (jdSkills resumeSkills : List String) : List String :=
  resumeSkills.filter (skillMatches jdSkills)

/-- The three-element highlight list built by the route. -/
def highlights (r : Resume) (matched : List String) : List String :=
  [toString (jsOrInt r.experience_years 0) ++ " years of experience",
   toString matched.length ++ " matching skills",
   jsOrStr r.education "Education not specified"]

/-- `Math.round(similarity * 100)` from the route. -/
def scoreOfSimilarity (similarity : ℚ) : ℤ :=
  jsRound (similarity * 100)

/-- One element of the fallback-path `matchResults` array:
`{ resume, similarity_score, matched_skills, highlights }`. -/
structure FrontMatch where
  resume : Resume
  similarity_score : ℤ
  matched_skills : List String
  highlights : List String
  deriving Repr, DecidableEq

/-- The body of the `resumes.map(...)` arrow in the fallback path: `null`
(here `none`) when either embedding is missing, otherwise the scored
entry. `cosSim` models the external `cosineSimilarity` function. -/
def computeMatch (cosSim : List ℚ → List ℚ → ℚ) (jd : JobDescription)
    (r : Resume) : Option FrontMatch :=
  match jd.embedding, r.embedding with
  | some je, some re =>
    let similarity := cosSim je re
    let score := scoreOfSimilarity similarity
    let jdSkills := jsOrList jd.skills []
    let resumeSkills := jsOrList r.skills []
    let matched := matchedSkills jdSkills resumeSkills
    some { resume := r
           similarity_score := score
           matched_skills := matched
           highlights := highlights r matched }
  | _, _ => none

/-- Insertion step of a stable descending sort on `similarity_score`:
the inserted element precedes every later element of equal score. -/
def insertByScore (x : FrontMatch) : List FrontMatch → List FrontMatch
  | [] => [x]
  | y :: ys =>
    if y.similarity_score > x.similarity_score then y :: insertByScore x ys
    else x :: y :: ys

/-- Stable sort by descending `similarity_score`, the semantics of
`sort((a, b) => b.similarity_score - a.similarity_score)` in JavaScript
(whose `Array.prototype.sort` is stable). -/
def sortByScoreDesc : List FrontMatch → List FrontMatch
  | [] => []
  | x :: xs => insertByScore x (sortByScoreDesc xs)

/-- The fallback-path entries before sorting:
`resumes.map(...).filter(Boolean)`. -/
def rawMatches (cosSim : List ℚ → List ℚ → ℚ) (jd : JobDescription)
    (resumes : List Resume) : List FrontMatch :=
  (resumes.map (computeMatch cosSim jd)).filterMap id

/-- The fallback-path `matchResults` array: map, filter out `null`, sort
descending by score. -/
def matchResults (cosSim : List ℚ → List ℚ → ℚ) (jd : JobDescription)
    (resumes : List Resume) : List FrontMatch :=
  sortByScoreDesc (rawMatches cosSim jd resumes)

/-- The `match_results` row built from a fallback-path entry: the score is
stored divided by 100 (comment in the route: store as decimal). -/
def fallbackRow (jdId : Nat) (m : FrontMatch) : MatchRow :=
  { job_description_id := jdId
    resume_id := m.resume.id
    similarity_score := (m.similarity_score : ℚ) / 100
    matched_skills := m.matched_skills
    highlights := m.highlights }

/-- One entry of the Python backend response `results` array (fields the
route reads). -/
structure BackendRes where
  resume_id : Nat
  candidate_name : Option String
  email : Option String
  file_name : Option String
  experience_years : Option Int
  skills : Option (List String)
  education : Option String
  similarity_score : ℚ
  matched_skills : List String
  highlights : List String
  deriving Repr, DecidableEq

/-- The decoded JSON body of a successful HTTP response from
`POST http://localhost:8000/match`. -/
structure BackendResp where
  success : Bool
  message : Option String
  results : List BackendRes
  deriving Repr, DecidableEq

/-- The `match_results` row built from a backend result entry. -/
def backendRow (jdId : Nat) (r : BackendRes) : MatchRow :=
  { job_description_id := jdId
    resume_id := r.resume_id
    similarity_score := r.similarity_score / 100
    matched_skills := r.matched_skills
    highlights := r.highlights }

/-- The resume object assembled by the backend-path formatting step. -/
structure BackendResumeView where
  id : Nat
  candidate_name : Option String
  email : Option String
  file_name : Option String
  experience_years : Option Int
  skills : Option (List String)
  education : Option String
  deriving Repr, DecidableEq

/-- One entry of the backend-path `formattedResults` array. -/
structure BackendMatch where
  resume : BackendResumeView
  similarity_score : ℚ
  matched_skills : List String
  highlights : List String
  deriving Repr, DecidableEq

/-- The backend-path formatting of one backend result entry. -/
def formatBackendRes (r : BackendRes) : BackendMatch :=
  { resume := { id := r.resume_id
                candidate_name := r.candidate_name
                email := r.email
                file_name := r.file_name
                experience_years := r.experience_years
                skills := r.skills
                education := r.education }
    similarity_score := r.similarity_score
    matched_skills := r.matched_skills
    highlights := r.highlights }

/-- The JSON body the route returns: an error object with an HTTP status,
the fallback-path array of `FrontMatch` entries, or the backend-path array
of formatted entries. No constructor carries any strategy marker, matching
the route, which only logs the fallback with `console.warn` server-side. -/
inductive RouteResponse where
  | err (status : Nat) (msg : String)
  | okFallback (results : List FrontMatch)
  | okBackend (results : List BackendMatch)
  deriving Repr, DecidableEq

/-- The `POST /api/match` route handler.

Inputs modelling the environment:
  - `cosSim` — the external `cosineSimilarity` function;
  - `backend` — `none` when `fetch("http://localhost:8000/match")` is not
    `ok` (backend unavailable), otherwise the decoded response body;
  - `insertFails` — whether the `match_results` insert returns an error
    (the route only logs that error);
  - `resumesError` — an error from the `resumes` select, surfaced as a
    500 response.

Returns the response together with the database state after the call.
The delete of existing `match_results` rows for the job description is
modelled by `filter`; the insert appends the fresh rows (nothing when the
insert fails). -/
def matchRoute (cosSim : List ℚ → List ℚ → ℚ) (backend : Option BackendResp)
    (insertFails : Bool) (resumesError : Option String) (db : Db)
    (jobDescriptionId : Nat) : RouteResponse × Db :=
  match db.job_descriptions.find? (fun j => j.id == jobDescriptionId) with
  | none => (.err 404 "Job description not found", db)
  | some jobDescription =>
    match resumesError with
    | some msg => (.err 500 msg, db)
    | none =>
      match backend with
      | none =>
        let results := matchResults cosSim jobDescription db.resumes
        let matchInserts := results.map (fallbackRow jobDescriptionId)
        let afterDelete := db.match_results.filter
          (fun row => row.job_description_id != jobDescriptionId)
        let newRows := afterDelete ++ if insertFails then [] else matchInserts
        (.okFallback results, { db with match_results := newRows })
      | some backendData =>
        if backendData.success then
          let matchInserts := backendData.results.map (backendRow jobDescriptionId)
          let afterDelete := db.match_results.filter
            (fun row => row.job_description_id != jobDescriptionId)
          let newRows := afterDelete ++ if insertFails then [] else matchInserts
          let formattedResults := backendData.results.map formatBackendRes
          (.okBackend formattedResults, { db with match_results := newRows })
        else
          (.err 500 (jsOrStr backendData.message "Matching failed"), db)

/-- The resume ids mentioned by a response (empty for error responses). -/
def responseResumeIds : RouteResponse → List Nat
  | .err _ _ => []
  | .okFallback results => results.map (fun m => m.resume.id)
  | .okBackend results => results.map (fun m => m.resume.id)

/-- C4 counterexample: resume skills [Python, python, SQL] against JD skills
[Python] yield [Python, python], not [Python] exactly once: the filter does
not collapse case-variant duplicates. -/
theorem C4_cex :
    matchedSkills ["Python"] ["Python", "python", "SQL"] = ["Python", "python"] ∧
    matchedSkills ["Python"] ["Python", "python", "SQL"] ≠ ["Python"] := by
  decide

/-- C4 (amended): the matched-skills output is the sublist of resume skills
matched by some JD skill via case-insensitive bidirectional containment, in
resume-list order, with one output entry per resume-list entry (a skill is
not repeated for matching several JD skills), but duplicate resume entries
such as case variants are not collapsed. -/
theorem C4_amended (jdSkills resumeSkills : List String) :
    (matchedSkills jdSkills resumeSkills).Sublist resumeSkills ∧
    (∀ s, s ∈ matchedSkills jdSkills resumeSkills ↔
      s ∈ resumeSkills ∧ skillMatches jdSkills s = true) ∧
    (∀ s, skillMatches jdSkills s = true →
      (matchedSkills jdSkills resumeSkills).count s = resumeSkills.count s) ∧
    (∀ s, skillMatches jdSkills s = false →
      (matchedSkills jdSkills resumeSkills).count s = 0) := by
  refine ⟨List.filter_sublist _, fun s => ?_, fun s hs => ?_, fun s hs => ?_⟩
  · simp [matchedSkills, List.mem_filter]
  · exact List.count_filter hs
  · rw [List.count_eq_zero]
    intro hmem
    have h2 := (List.mem_filter.mp (by simpa [matchedSkills] using hmem)).2
    simp [hs] at h2


/-- C7: every computed match has exactly three highlights, in fixed order:
the experience summary (0 when experience is unknown), the matching-skills
count, and the education or a fixed default when education is absent. -/
theorem C7_highlights (cosSim : List ℚ → List ℚ → ℚ) (jd : JobDescription)
    (r : Resume) (m : FrontMatch) (h : computeMatch cosSim jd r = some m) :
    m.highlights.length = 3 ∧
    m.highlights =
      [toString (jsOrInt r.experience_years 0) ++ " years of experience",
       toString m.matched_skills.length ++ " matching skills",
       jsOrStr r.education "Education not specified"] := by
  rcases hj : jd.embedding with _ | je <;> rcases hr : r.embedding with _ | re <;>
    simp [computeMatch, hj, hr] at h
  subst h
  simp [highlights]

/-- C4 witness for the amended claim at a concrete skill list. -/
theorem C4_witness :
    skillMatches ["Python"] "Python" = true ∧
    (matchedSkills ["Python"] ["Python", "SQL"]).count "Python" =
      (["Python", "SQL"] : List String).count "Python" :=
  ⟨by decide, (C4_amended ["Python"] ["Python", "SQL"]).2.2.1 "Python" (by decide)⟩

def jdW : JobDescription := { id := 7, skills := some ["Python"], embedding := some [1, 0] }

def rW : Resume :=
  { id := 1, file_name := "a.pdf", candidate_name := some "A", email := none,
    phone := none, experience_years := some 3, skills := some ["Python", "SQL"],
    education := none, raw_text := "t", embedding := some [1, 0] }

def mW : FrontMatch :=
  { resume := rW
    similarity_score := scoreOfSimilarity 1
    matched_skills := ["Python"]
    highlights := ["3 years of experience", "1 matching skills", "Education not specified"] }

/-- C7 witness on a concrete resume. -/
theorem C7_witness :
    computeMatch (fun _ _ => 1) jdW rW = some mW ∧ mW.highlights.length = 3 := by
  have h : computeMatch (fun _ _ => 1) jdW rW = some mW := rfl
  exact ⟨h, (C7_highlights _ _ _ _ h).1⟩

/-- C8: when the referenced JD id is absent from the store, the route
returns a 404 Job description not found error, computes no scores, and
leaves the stored match rows unchanged. -/
theorem C8_not_found (cosSim : List ℚ → List ℚ → ℚ) (backend : Option BackendResp)
    (insertFails : Bool) (resumesError : Option String) (db : Db) (jdId : Nat)
    (h : db.job_descriptions.find? (fun j => j.id == jdId) = none) :
    matchRoute cosSim backend insertFails resumesError db jdId =
      (.err 404 "Job description not found", db) := by
  simp [matchRoute, h]

/-- C8 witness on a concrete database without the requested id. -/
theorem C8_witness :
    matchRoute (fun _ _ => 1) none false none
        { job_descriptions := [jdW], resumes := [rW], match_results := [] } 99 =
      (.err 404 "Job description not found",
       { job_descriptions := [jdW], resumes := [rW], match_results := [] }) :=
  C8_not_found _ _ _ _ _ _ (by decide)

/-- C10: when the stored JD skills field is null or the empty list, every
computed match has an empty matched-skills list and its second highlight is
0 matching skills, regardless of the resume skills. -/
theorem C10_empty_jd_skills (cosSim : List ℚ → List ℚ → ℚ) (jd : JobDescription)
    (r : Resume) (m : FrontMatch)
    (hskills : jd.skills = none ∨ jd.skills = some [])
    (h : computeMatch cosSim jd r = some m) :
    m.matched_skills = [] ∧ m.highlights.get? 1 = some "0 matching skills" := by
  rcases hj : jd.embedding with _ | je <;> rcases hr : r.embedding with _ | re <;>
    simp [computeMatch, hj, hr] at h
  subst h
  have hempty : jsOrList jd.skills [] = [] := by
    rcases hskills with h1 | h1 <;> simp [jsOrList, h1]
  have hfilter : List.filter (skillMatches []) (jsOrList r.skills []) = [] := by
    simp [skillMatches]
  simp [hempty, matchedSkills, highlights, hfilter]
  rfl

def jdE : JobDescription := { id := 8, skills := some [], embedding := some [1, 0] }

def mE : FrontMatch :=
  { resume := rW
    similarity_score := scoreOfSimilarity 1
    matched_skills := []
    highlights := ["3 years of experience", "0 matching skills", "Education not specified"] }

/-- C10 witness on a JD whose skills list is empty. -/
theorem C10_witness :
    computeMatch (fun _ _ => 1) jdE rW = some mE ∧ mE.matched_skills = [] ∧
      mE.highlights.get? 1 = some "0 matching skills" := by
  have h : computeMatch (fun _ _ => 1) jdE rW = some mE := rfl
  exact ⟨h, C10_empty_jd_skills _ _ _ _ (Or.inr rfl) h⟩


def dbW : Db := { job_descriptions := [jdW], resumes := [rW], match_results := [] }

/-- C9 (amended): when storing the computed match rows fails, the error is
only logged: the response is identical to the success-case response, so the
in-memory results are still returned, but no error is surfaced to the
caller. -/
theorem C9_amended (cosSim : List ℚ → List ℚ → ℚ) (backend : Option BackendResp)
    (resumesError : Option String) (db : Db) (jdId : Nat) :
    (matchRoute cosSim backend true resumesError db jdId).1 =
      (matchRoute cosSim backend false resumesError db jdId).1 := by
  cases hfind : db.job_descriptions.find? (fun j => j.id == jdId) with
  | none => simp [matchRoute, hfind]
  | some jd =>
    cases resumesError with
    | some msg => simp [matchRoute, hfind]
    | none =>
      cases backend with
      | none => simp [matchRoute, hfind]
      | some bd =>
        by_cases hs : bd.success <;> simp [matchRoute, hfind, hs]

/-- C9 counterexample: on a concrete run whose insert fails, the response
equals the success-case response and is the plain results array, while the
store is left with no rows for the job description; nothing surfaces the
persistence error. -/
theorem C9_cex :
    (matchRoute (fun _ _ => 1) none true none dbW 7).1 =
      (matchRoute (fun _ _ => 1) none false none dbW 7).1 ∧
    (matchRoute (fun _ _ => 1) none true none dbW 7).1 =
      .okFallback (matchResults (fun _ _ => 1) jdW dbW.resumes) ∧
    (matchRoute (fun _ _ => 1) none true none dbW 7).2.match_results = [] :=
  ⟨rfl, rfl, rfl⟩

/-- C1 (amended): the similarity score of a computed match is Math.round of
100 times the cosine similarity, with no clamping; for cosine values in
[-1, 1] the score lies in [-100, 100] (not [0, 100]), and the derivation is
monotone in the cosine value. -/
theorem C1_amended (cosSim : List ℚ → List ℚ → ℚ) (jd : JobDescription) (r : Resume)
    (m : FrontMatch) (je re : List ℚ)
    (h : computeMatch cosSim jd r = some m)
    (hj : jd.embedding = some je) (hr : r.embedding = some re)
    (h1 : -1 ≤ cosSim je re) (h2 : cosSim je re ≤ 1) :
    m.similarity_score = scoreOfSimilarity (cosSim je re) ∧
    -100 ≤ m.similarity_score ∧ m.similarity_score ≤ 100 ∧
    ∀ s t : ℚ, s ≤ t → scoreOfSimilarity s ≤ scoreOfSimilarity t := by
  have hm : m.similarity_score = scoreOfSimilarity (cosSim je re) := by
    simp [computeMatch, hj, hr] at h
    subst h
    rfl
  have hmono : ∀ s t : ℚ, s ≤ t → scoreOfSimilarity s ≤ scoreOfSimilarity t := by
    intro s t hst
    unfold scoreOfSimilarity jsRound
    apply Int.floor_mono
    linarith
  refine ⟨hm, ?_, ?_, hmono⟩
  · rw [hm]
    unfold scoreOfSimilarity jsRound
    rw [Int.le_floor]
    push_cast
    linarith
  · rw [hm]
    have h100 : scoreOfSimilarity 1 = 100 := by
      unfold scoreOfSimilarity jsRound
      norm_num
    calc scoreOfSimilarity (cosSim je re) ≤ scoreOfSimilarity 1 := hmono _ _ h2
      _ = 100 := h100

def mNeg : FrontMatch :=
  { resume := rW
    similarity_score := scoreOfSimilarity (-1)
    matched_skills := ["Python"]
    highlights := ["3 years of experience", "1 matching skills", "Education not specified"] }

/-- C1 counterexample: with cosine similarity -1 (a value the spec allows
for dense embeddings), the fallback path returns similarity score -100, a
negative percentage outside [0, 100]: no clamping to [0, 1] happens before
scaling. -/
theorem C1_cex :
    (-1 ≤ (-1 : ℚ) ∧ (-1 : ℚ) ≤ 1) ∧
    (matchRoute (fun _ _ => -1) none false none dbW 7).1 = .okFallback [mNeg] ∧
    mNeg.similarity_score = -100 ∧ mNeg.similarity_score < 0 := by
  have hscore : mNeg.similarity_score = -100 := by
    show scoreOfSimilarity (-1) = -100
    unfold scoreOfSimilarity jsRound
    norm_num
  exact ⟨⟨le_refl _, by norm_num⟩, rfl, hscore, by rw [hscore]; norm_num⟩

/-- C1 witness for the amended claim at cosine similarity 1. -/
theorem C1_witness :
    computeMatch (fun _ _ => 1) jdW rW = some mW ∧
    mW.similarity_score = scoreOfSimilarity 1 ∧
    -100 ≤ mW.similarity_score ∧ mW.similarity_score ≤ 100 := by
  have h : computeMatch (fun _ _ => 1) jdW rW = some mW := rfl
  have hc := C1_amended (fun _ _ => 1) jdW rW mW [1, 0] [1, 0] h rfl rfl
    (by norm_num) (by norm_num)
  exact ⟨h, hc.1, hc.2.1, hc.2.2.1⟩


theorem insertByScore_perm (x : FrontMatch) (l : List FrontMatch) :
    (insertByScore x l).Perm (x :: l) := by
  induction l with
  | nil => exact List.Perm.refl _
  | cons y ys ih =>
    unfold insertByScore
    by_cases h : y.similarity_score > x.similarity_score
    · simp only [if_pos h]
      exact (ih.cons y).trans (List.Perm.swap x y ys)
    · simp only [if_neg h]
      exact List.Perm.refl _

theorem sortByScoreDesc_perm (l : List FrontMatch) : (sortByScoreDesc l).Perm l := by
  induction l with
  | nil => exact List.Perm.refl _
  | cons x xs ih => exact (insertByScore_perm x _).trans (ih.cons x)

theorem insertByScore_pairwise (x : FrontMatch) (l : List FrontMatch)
    (h : l.Pairwise (fun a b => b.similarity_score ≤ a.similarity_score)) :
    (insertByScore x l).Pairwise (fun a b => b.similarity_score ≤ a.similarity_score) := by
  induction l with
  | nil => simp [insertByScore]
  | cons y ys ih =>
    rcases List.pairwise_cons.mp h with ⟨hy, hys⟩
    unfold insertByScore
    by_cases hc : y.similarity_score > x.similarity_score
    · simp only [if_pos hc]
      refine List.pairwise_cons.mpr ⟨?_, ih hys⟩
      intro a ha
      rcases List.mem_cons.mp ((insertByScore_perm x ys).mem_iff.mp ha) with ha1 | ha1
      · subst ha1
        exact le_of_lt hc
      · exact hy a ha1
    · simp only [if_neg hc]
      push_neg at hc
      refine List.pairwise_cons.mpr ⟨?_, h⟩
      intro a ha
      rcases List.mem_cons.mp ha with ha1 | ha1
      · subst ha1
        exact hc
      · exact le_trans (hy a ha1) hc

theorem sortByScoreDesc_pairwise (l : List FrontMatch) :
    (sortByScoreDesc l).Pairwise (fun a b => b.similarity_score ≤ a.similarity_score) := by
  induction l with
  | nil => simp [sortByScoreDesc]
  | cons x xs ih => exact insertByScore_pairwise x _ ih

theorem filter_insertByScore (x : FrontMatch) (l : List FrontMatch) (s : ℤ) :
    (insertByScore x l).filter (fun m => m.similarity_score == s) =
      (if x.similarity_score == s then [x] else []) ++
        l.filter (fun m => m.similarity_score == s) := by
  induction l with
  | nil =>
    unfold insertByScore
    by_cases hx : x.similarity_score == s <;> simp [List.filter_cons, hx]
  | cons y ys ih =>
    unfold insertByScore
    by_cases hc : y.similarity_score > x.similarity_score
    · simp only [if_pos hc]
      rw [List.filter_cons, List.filter_cons]
      by_cases hy : y.similarity_score == s
      · have hxs : (x.similarity_score == s) = false := by
          rw [beq_iff_eq] at hy
          rw [beq_eq_false_iff_ne]
          intro hxeq
          rw [hxeq, hy] at hc
          exact lt_irrefl _ hc
        simp only [hy, if_pos, ih, hxs, Bool.false_eq_true, if_false,
          List.nil_append]
      · simp only [hy, Bool.false_eq_true, if_false, ih]
    · simp only [if_neg hc]
      rw [List.filter_cons]
      by_cases hx : x.similarity_score == s <;> simp [hx, List.filter_cons]

theorem filter_sortByScoreDesc (l : List FrontMatch) (s : ℤ) :
    (sortByScoreDesc l).filter (fun m => m.similarity_score == s) =
      l.filter (fun m => m.similarity_score == s) := by
  induction l with
  | nil => rfl
  | cons x xs ih =>
    show (insertByScore x (sortByScoreDesc xs)).filter _ = _
    rw [filter_insertByScore, ih, List.filter_cons]
    by_cases h : x.similarity_score == s <;> simp [h]

/-- C3 (amended): the ranked output is a permutation of the computed
entries, sorted descending by similarity score, and the sort is stable:
entries of any fixed score keep the order of the fetched resume list. There
is no tie-break by resume id. -/
theorem C3_amended (cosSim : List ℚ → List ℚ → ℚ) (jd : JobDescription)
    (resumes : List Resume) :
    (matchResults cosSim jd resumes).Perm (rawMatches cosSim jd resumes) ∧
    (matchResults cosSim jd resumes).Pairwise
      (fun a b => b.similarity_score ≤ a.similarity_score) ∧
    ∀ s : ℤ, (matchResults cosSim jd resumes).filter (fun m => m.similarity_score == s) =
      (rawMatches cosSim jd resumes).filter (fun m => m.similarity_score == s) :=
  ⟨sortByScoreDesc_perm _, sortByScoreDesc_pairwise _, fun s => filter_sortByScoreDesc _ s⟩

def rX : Resume := { rW with id := 2 }

def mW0 : FrontMatch :=
  { resume := rW
    similarity_score := scoreOfSimilarity 0
    matched_skills := ["Python"]
    highlights := ["3 years of experience", "1 matching skills", "Education not specified"] }

def mX0 : FrontMatch := { mW0 with resume := rX }

/-- C3 counterexample: two resumes with equal scores fetched in id order
[2, 1] are ranked [2, 1], not in ascending resume id order. -/
theorem C3_cex :
    (matchResults (fun _ _ => 0) jdW [rX, rW]).map (fun m => m.resume.id) = [2, 1] ∧
    (matchResults (fun _ _ => 0) jdW [rX, rW]).map (fun m => m.similarity_score) =
      [scoreOfSimilarity 0, scoreOfSimilarity 0] ∧
    ¬ ([2, 1] : List Nat).Pairwise (· ≤ ·) := by
  have hraw : rawMatches (fun _ _ => 0) jdW [rX, rW] = [mX0, mW0] := rfl
  have hins : insertByScore mX0 [mW0] = [mX0, mW0] := by
    unfold insertByScore
    rw [if_neg]
    show ¬ scoreOfSimilarity 0 > scoreOfSimilarity 0
    exact lt_irrefl _
  have hres : matchResults (fun _ _ => 0) jdW [rX, rW] = [mX0, mW0] := by
    show sortByScoreDesc (rawMatches (fun _ _ => 0) jdW [rX, rW]) = [mX0, mW0]
    rw [hraw]
    show insertByScore mX0 (insertByScore mW0 []) = [mX0, mW0]
    exact hins
  refine ⟨by rw [hres]; rfl, by rw [hres]; rfl, by decide⟩

theorem rawMatches_map_id (cosSim : List ℚ → List ℚ → ℚ) (jd : JobDescription)
    (rs : List Resume) (je : List ℚ) (hj : jd.embedding = some je) :
    (rawMatches cosSim jd rs).map (fun m => m.resume.id) =
      (rs.filter (fun r => r.embedding.isSome)).map (fun r => r.id) := by
  induction rs with
  | nil => rfl
  | cons r rs ih =>
    simp only [rawMatches] at ih
    rcases hr : r.embedding with _ | re
    · have hnone : computeMatch cosSim jd r = none := by
        simp [computeMatch, hj, hr]
      simp only [rawMatches, List.map_cons, List.filterMap_cons, hnone, List.filter_cons,
        hr, Option.isSome_none, Bool.false_eq_true, if_false]
      exact ih
    · rcases hsome : computeMatch cosSim jd r with _ | m
      · rw [computeMatch, hj, hr] at hsome
        simp at hsome
      · have hid : m.resume.id = r.id := by
          rw [computeMatch, hj, hr] at hsome
          simp only [Option.some_inj] at hsome
          rw [← hsome]
        simp only [rawMatches, List.map_cons, List.filterMap_cons, hsome, id_eq,
          List.filter_cons, hr, Option.isSome_some, if_true, hid]
        rw [ih]

/-- C5 (amended): a resume without an embedding does not abort the batch:
the fallback response is the ranking of exactly the resumes that do have
embeddings; the failed resume is silently dropped from the response rather
than flagged or reported. -/
theorem C5_amended (cosSim : List ℚ → List ℚ → ℚ) (db : Db) (jd : JobDescription)
    (jdId : Nat) (insertFails : Bool) (je : List ℚ)
    (hfind : db.job_descriptions.find? (fun j => j.id == jdId) = some jd)
    (hj : jd.embedding = some je) :
    (matchRoute cosSim none insertFails none db jdId).1 =
      .okFallback (matchResults cosSim jd db.resumes) ∧
    ((matchResults cosSim jd db.resumes).map (fun m => m.resume.id)).Perm
      ((db.resumes.filter (fun r => r.embedding.isSome)).map (fun r => r.id)) := by
  constructor
  · simp [matchRoute, hfind]
  · have hperm := (sortByScoreDesc_perm (rawMatches cosSim jd db.resumes)).map
      (fun m => m.resume.id)
    rw [rawMatches_map_id cosSim jd db.resumes je hj] at hperm
    exact hperm


/-- At most one stored row per (job_description_id, resume_id) pair. -/
def pairsUnique (rows : List MatchRow) : Prop :=
  (rows.map (fun row => (row.job_description_id, row.resume_id))).Nodup

theorem computeMatch_resume (cosSim : List ℚ → List ℚ → ℚ) (jd : JobDescription)
    (r : Resume) (m : FrontMatch) (h : computeMatch cosSim jd r = some m) :
    m.resume = r := by
  rcases hj : jd.embedding with _ | je <;> rcases hr : r.embedding with _ | re <;>
    simp [computeMatch, hj, hr] at h
  rw [← h]

theorem rawMatches_ids_sublist (cosSim : List ℚ → List ℚ → ℚ) (jd : JobDescription)
    (rs : List Resume) :
    ((rawMatches cosSim jd rs).map (fun m => m.resume.id)).Sublist
      (rs.map (fun r => r.id)) := by
  induction rs with
  | nil => simp [rawMatches]
  | cons r rs ih =>
    simp only [rawMatches, List.map_cons, List.filterMap_cons] at *
    cases hsome : computeMatch cosSim jd r with
    | none => exact ih.cons _
    | some m =>
      have hid : m.resume.id = r.id := by rw [computeMatch_resume _ _ _ _ hsome]
      simp only [id_eq, List.map_cons, hid]
      exact ih.cons₂ _

theorem matchResults_ids_nodup (cosSim : List ℚ → List ℚ → ℚ) (jd : JobDescription)
    (rs : List Resume) (h : (rs.map (fun r => r.id)).Nodup) :
    ((matchResults cosSim jd rs).map (fun m => m.resume.id)).Nodup := by
  have hperm := (sortByScoreDesc_perm (rawMatches cosSim jd rs)).map (fun m => m.resume.id)
  exact hperm.nodup_iff.mpr ((rawMatches_ids_sublist cosSim jd rs).nodup h)

theorem pairsUnique_delete_insert (rows : List MatchRow) (jdId : Nat)
    (fresh : List MatchRow) (hrows : pairsUnique rows)
    (hfresh : (fresh.map (fun row => row.resume_id)).Nodup)
    (hjd : ∀ row ∈ fresh, row.job_description_id = jdId) :
    pairsUnique (rows.filter (fun row => row.job_description_id != jdId) ++ fresh) := by
  unfold pairsUnique at *
  rw [List.map_append, List.nodup_append]
  refine ⟨((List.filter_sublist _).map _).nodup hrows, ?_, ?_⟩
  · have hcongr : fresh.map (fun row => (row.job_description_id, row.resume_id)) =
        (fresh.map (fun row => row.resume_id)).map (fun i => (jdId, i)) := by
      rw [List.map_map]
      exact List.map_congr_left (fun row hrow => by simp [hjd row hrow])
    rw [hcongr]
    exact hfresh.map (fun a b hab => by simpa using hab)
  · intro p hp1 hp2
    obtain ⟨row1, h1, hep⟩ := List.mem_map.mp hp1
    obtain ⟨row2, h2, heq⟩ := List.mem_map.mp hp2
    have hne : row1.job_description_id ≠ jdId := by
      have := (List.mem_filter.mp h1).2
      simpa using this
    apply hne
    have : row1.job_description_id = row2.job_description_id := by
      rw [← heq] at hep
      exact (Prod.mk.injEq _ _ _ _).mp hep |>.1
    rw [this]
    exact hjd row2 h2

theorem filter_delete_append (rows fresh : List MatchRow) (jdId : Nat)
    (hjd : ∀ row ∈ fresh, row.job_description_id = jdId) :
    ((rows.filter (fun row => row.job_description_id != jdId)) ++ fresh).filter
        (fun row => row.job_description_id != jdId) =
      rows.filter (fun row => row.job_description_id != jdId) := by
  rw [List.filter_append]
  have h1 : (rows.filter (fun row => row.job_description_id != jdId)).filter
      (fun row => row.job_description_id != jdId) =
      rows.filter (fun row => row.job_description_id != jdId) := by
    rw [List.filter_filter]
    simp
  have h2 : fresh.filter (fun row => row.job_description_id != jdId) = [] := by
    rw [List.filter_eq_nil_iff]
    intro row hrow
    simp [hjd row hrow]
  rw [h1, h2, List.append_nil]

theorem matchRoute_fallback_eq (cosSim : List ℚ → List ℚ → ℚ) (insertFails : Bool)
    (db : Db) (jdId : Nat) (jd : JobDescription)
    (hfind : db.job_descriptions.find? (fun j => j.id == jdId) = some jd) :
    matchRoute cosSim none insertFails none db jdId =
      (.okFallback (matchResults cosSim jd db.resumes),
       { db with match_results :=
           db.match_results.filter (fun row => row.job_description_id != jdId) ++
             if insertFails then []
             else (matchResults cosSim jd db.resumes).map (fallbackRow jdId) }) := by
  simp [matchRoute, hfind]

theorem matchRoute_backend_eq (cosSim : List ℚ → List ℚ → ℚ) (bd : BackendResp)
    (insertFails : Bool) (db : Db) (jdId : Nat) (jd : JobDescription)
    (hfind : db.job_descriptions.find? (fun j => j.id == jdId) = some jd)
    (hs : bd.success = true) :
    matchRoute cosSim (some bd) insertFails none db jdId =
      (.okBackend (bd.results.map formatBackendRes),
       { db with match_results :=
           db.match_results.filter (fun row => row.job_description_id != jdId) ++
             if insertFails then []
             else bd.results.map (backendRow jdId) }) := by
  simp [matchRoute, hfind, hs]


theorem fresh_fallback_jd (cosSim : List ℚ → List ℚ → ℚ) (jd : JobDescription)
    (rs : List Resume) (jdId : Nat) (insertFails : Bool) :
    ∀ row ∈ (if insertFails then []
      else (matchResults cosSim jd rs).map (fallbackRow jdId)),
      row.job_description_id = jdId := by
  intro row hrow
  cases insertFails with
  | true => simp at hrow
  | false =>
    simp only [Bool.false_eq_true, if_false] at hrow
    obtain ⟨m, hm, hrf⟩ := List.mem_map.mp hrow
    rw [← hrf]
    rfl

theorem fresh_backend_jd (bd : BackendResp) (jdId : Nat) (insertFails : Bool) :
    ∀ row ∈ (if insertFails then [] else bd.results.map (backendRow jdId)),
      row.job_description_id = jdId := by
  intro row hrow
  cases insertFails with
  | true => simp at hrow
  | false =>
    simp only [Bool.false_eq_true, if_false] at hrow
    obtain ⟨m, hm, hrf⟩ := List.mem_map.mp hrow
    rw [← hrf]
    rfl

theorem fresh_fallback_ids (cosSim : List ℚ → List ℚ → ℚ) (jd : JobDescription)
    (rs : List Resume) (jdId : Nat) (insertFails : Bool)
    (hres : (rs.map (fun r => r.id)).Nodup) :
    (((if insertFails then []
        else (matchResults cosSim jd rs).map (fallbackRow jdId))).map
      (fun row => row.resume_id)).Nodup := by
  cases insertFails with
  | true => simp
  | false =>
    simp only [Bool.false_eq_true, if_false, List.map_map]
    have hcomp : ((fun row => row.resume_id) ∘ fallbackRow jdId) =
        fun m => m.resume.id := rfl
    rw [hcomp]
    exact matchResults_ids_nodup cosSim jd rs hres

theorem fresh_backend_ids (bd : BackendResp) (jdId : Nat) (insertFails : Bool)
    (hbk : (bd.results.map (fun r => r.resume_id)).Nodup) :
    ((if insertFails then [] else bd.results.map (backendRow jdId)).map
      (fun row => row.resume_id)).Nodup := by
  cases insertFails with
  | true => simp
  | false =>
    simp only [Bool.false_eq_true, if_false, List.map_map]
    have hcomp : ((fun row => row.resume_id) ∘ backendRow jdId) =
        fun r => r.resume_id := rfl
    rw [hcomp]
    exact hbk

/-- C2: the route deletes all stored match rows for the job description and
then inserts the fresh set, so re-running it with unchanged documents
yields the same stored rows and the same response, and afterwards at most
one row per (job_description_id, resume_id) pair exists, on the fallback
path, the backend path and the error paths alike. -/
theorem C2_thm (cosSim : List ℚ → List ℚ → ℚ) (backend : Option BackendResp)
    (insertFails : Bool) (db : Db) (jdId : Nat)
    (hres : (db.resumes.map (fun r => r.id)).Nodup)
    (hbk : ∀ bd, backend = some bd → (bd.results.map (fun r => r.resume_id)).Nodup)
    (hprev : pairsUnique db.match_results) :
    pairsUnique (matchRoute cosSim backend insertFails none db jdId).2.match_results ∧
    matchRoute cosSim backend insertFails none
        (matchRoute cosSim backend insertFails none db jdId).2 jdId =
      matchRoute cosSim backend insertFails none db jdId := by
  cases hfind : db.job_descriptions.find? (fun j => j.id == jdId) with
  | none =>
    have h1 : matchRoute cosSim backend insertFails none db jdId =
        (.err 404 "Job description not found", db) := by
      simp [matchRoute, hfind]
    rw [h1]
    exact ⟨hprev, h1⟩
  | some jd =>
    cases backend with
    | none =>
      have h1 := matchRoute_fallback_eq cosSim insertFails db jdId jd hfind
      refine ⟨?_, ?_⟩
      · rw [h1]
        exact pairsUnique_delete_insert _ _ _ hprev
          (fresh_fallback_ids cosSim jd db.resumes jdId insertFails hres)
          (fresh_fallback_jd cosSim jd db.resumes jdId insertFails)
      · rw [h1]
        have h2 := matchRoute_fallback_eq cosSim insertFails
          { db with match_results :=
              db.match_results.filter (fun row => row.job_description_id != jdId) ++
                if insertFails then []
                else (matchResults cosSim jd db.resumes).map (fallbackRow jdId) }
          jdId jd hfind
        rw [h2]
        rw [Prod.mk.injEq]
        refine ⟨rfl, ?_⟩
        rw [Db.mk.injEq]
        refine ⟨rfl, rfl, ?_⟩
        show ((db.match_results.filter (fun row => row.job_description_id != jdId) ++
            if insertFails then []
            else (matchResults cosSim jd db.resumes).map (fallbackRow jdId)).filter
              (fun row => row.job_description_id != jdId)) ++
            (if insertFails then []
            else (matchResults cosSim jd db.resumes).map (fallbackRow jdId)) =
          db.match_results.filter (fun row => row.job_description_id != jdId) ++
            if insertFails then []
            else (matchResults cosSim jd db.resumes).map (fallbackRow jdId)
        rw [filter_delete_append _ _ _ (fresh_fallback_jd cosSim jd db.resumes jdId insertFails)]
    | some bd =>
      cases hs : bd.success with
      | false =>
        have h1 : matchRoute cosSim (some bd) insertFails none db jdId =
            (.err 500 (jsOrStr bd.message "Matching failed"), db) := by
          simp [matchRoute, hfind, hs]
        rw [h1]
        exact ⟨hprev, h1⟩
      | true =>
        have h1 := matchRoute_backend_eq cosSim bd insertFails db jdId jd hfind hs
        refine ⟨?_, ?_⟩
        · rw [h1]
          exact pairsUnique_delete_insert _ _ _ hprev
            (fresh_backend_ids bd jdId insertFails (hbk bd rfl))
            (fresh_backend_jd bd jdId insertFails)
        · rw [h1]
          have h2 := matchRoute_backend_eq cosSim bd insertFails
            { db with match_results :=
                db.match_results.filter (fun row => row.job_description_id != jdId) ++
                  if insertFails then [] else bd.results.map (backendRow jdId) }
            jdId jd hfind hs
          rw [h2]
          rw [Prod.mk.injEq]
          refine ⟨rfl, ?_⟩
          rw [Db.mk.injEq]
          refine ⟨rfl, rfl, ?_⟩
          show ((db.match_results.filter (fun row => row.job_description_id != jdId) ++
              if insertFails then [] else bd.results.map (backendRow jdId)).filter
                (fun row => row.job_description_id != jdId)) ++
              (if insertFails then [] else bd.results.map (backendRow jdId)) =
            db.match_results.filter (fun row => row.job_description_id != jdId) ++
              if insertFails then [] else bd.results.map (backendRow jdId)
          rw [filter_delete_append _ _ _ (fresh_backend_jd bd jdId insertFails)]


/-- C2 witness on a concrete database. -/
theorem C2_witness :
    ((dbW.resumes.map (fun r => r.id)).Nodup ∧ pairsUnique dbW.match_results) ∧
    pairsUnique (matchRoute (fun _ _ => 1) none false none dbW 7).2.match_results ∧
    matchRoute (fun _ _ => 1) none false none
        (matchRoute (fun _ _ => 1) none false none dbW 7).2 7 =
      matchRoute (fun _ _ => 1) none false none dbW 7 := by
  have hpairs : pairsUnique dbW.match_results := by
    simp [pairsUnique, dbW]
  have h := C2_thm (fun _ _ => 1) none false dbW 7 (by decide)
    (fun bd hbd => by cases hbd) hpairs
  exact ⟨⟨by decide, hpairs⟩, h.1, h.2⟩

def rN : Resume := { rW with id := 5, embedding := none }

def db5 : Db := { job_descriptions := [jdW], resumes := [rW, rN], match_results := [] }

/-- C5 counterexample: with resume 5 lacking an embedding, the response
ranks only resume 1 and contains nothing referring to resume 5: the failure
is not reported. -/
theorem C5_cex :
    rN.embedding = none ∧ rN.id = 5 ∧
    (matchRoute (fun _ _ => 1) none false none db5 7).1 = .okFallback [mW] ∧
    responseResumeIds (matchRoute (fun _ _ => 1) none false none db5 7).1 = [1] ∧
    5 ∉ responseResumeIds (matchRoute (fun _ _ => 1) none false none db5 7).1 := by
  refine ⟨rfl, rfl, rfl, rfl, ?_⟩
  have h : responseResumeIds (matchRoute (fun _ _ => 1) none false none db5 7).1 = [1] := rfl
  rw [h]
  decide

/-- C5 witness for the amended claim on a concrete database. -/
theorem C5_witness :
    dbW.job_descriptions.find? (fun j => j.id == 7) = some jdW ∧
    jdW.embedding = some [1, 0] ∧
    (matchRoute (fun _ _ => 1) none false none dbW 7).1 =
      .okFallback (matchResults (fun _ _ => 1) jdW dbW.resumes) :=
  ⟨rfl, rfl, (C5_amended (fun _ _ => 1) dbW jdW 7 false [1, 0] rfl rfl).1⟩

mutual
inductive Json where
  | null
  | num (q : ℚ)
  | str (s : String)
  | arr (elems : JsonArr)
  | obj (fields : JsonObj)
inductive JsonArr where
  | nil
  | cons (head : Json) (tail : JsonArr)
inductive JsonObj where
  | nil
  | cons (key : String) (value : Json) (tail : JsonObj)
end

mutual
/-- Whether a JSON document contains an object field named `k`, at any
depth. -/
def hasKey (k : String) : Json → Bool
  | .null => false
  | .num _ => false
  | .str _ => false
  | .arr xs => hasKeyArr k xs
  | .obj fs => hasKeyObj k fs
def hasKeyArr (k : String) : JsonArr → Bool
  | .nil => false
  | .cons j t => hasKey k j || hasKeyArr k t
def hasKeyObj (k : String) : JsonObj → Bool
  | .nil => false
  | .cons key v t => key == k || hasKey k v || hasKeyObj k t
end

def JsonArr.ofList : List Json → JsonArr
  | [] => .nil
  | j :: t => .cons j (ofList t)

def JsonObj.ofList : List (String × Json) → JsonObj
  | [] => .nil
  | (key, v) :: t => .cons key v (ofList t)

def Json.ofOptStr : Option String → Json
  | none => .null
  | some s => .str s

def Json.ofOptInt : Option Int → Json
  | none => .null
  | some n => .num n

def Json.ofStrList (l : List String) : Json :=
  .arr (JsonArr.ofList (l.map Json.str))

def Json.ofOptStrList : Option (List String) → Json
  | none => .null
  | some l => Json.ofStrList l

def Json.ofOptEmb : Option (List ℚ) → Json
  | none => .null
  | some v => .arr (JsonArr.ofList (v.map Json.num))

@[simp] theorem hasKey_null (k : String) : hasKey k .null = false := rfl

@[simp] theorem hasKey_num (k : String) (q : ℚ) : hasKey k (.num q) = false := rfl

@[simp] theorem hasKey_str (k s : String) : hasKey k (.str s) = false := rfl

@[simp] theorem hasKey_arr (k : String) (xs : JsonArr) :
    hasKey k (.arr xs) = hasKeyArr k xs := rfl

@[simp] theorem hasKey_obj (k : String) (fs : JsonObj) :
    hasKey k (.obj fs) = hasKeyObj k fs := rfl

@[simp] theorem hasKeyArr_nil (k : String) : hasKeyArr k .nil = false := rfl

@[simp] theorem hasKeyArr_cons (k : String) (j : Json) (t : JsonArr) :
    hasKeyArr k (.cons j t) = (hasKey k j || hasKeyArr k t) := rfl

@[simp] theorem hasKeyObj_nil (k : String) : hasKeyObj k .nil = false := rfl

@[simp] theorem hasKeyObj_cons (k key : String) (v : Json) (t : JsonObj) :
    hasKeyObj k (.cons key v t) = (key == k || hasKey k v || hasKeyObj k t) := rfl

@[simp] theorem hasKeyArr_ofList (k : String) (l : List Json) :
    hasKeyArr k (JsonArr.ofList l) = l.any (fun j => hasKey k j) := by
  induction l with
  | nil => rfl
  | cons j t ih => simp [JsonArr.ofList, ih]

@[simp] theorem hasKeyObj_ofList (k : String) (l : List (String × Json)) :
    hasKeyObj k (JsonObj.ofList l) = l.any (fun kv => kv.1 == k || hasKey k kv.2) := by
  induction l with
  | nil => rfl
  | cons kv t ih =>
    cases kv
    simp [JsonObj.ofList, ih, Bool.or_assoc]

@[simp] theorem hasKey_ofOptStr (k : String) (o : Option String) :
    hasKey k (Json.ofOptStr o) = false := by
  cases o <;> rfl

@[simp] theorem hasKey_ofOptInt (k : String) (o : Option Int) :
    hasKey k (Json.ofOptInt o) = false := by
  cases o <;> rfl

@[simp] theorem hasKey_ofStrList (k : String) (l : List String) :
    hasKey k (Json.ofStrList l) = false := by
  simp [Json.ofStrList, List.any_map, Function.comp_def]

@[simp] theorem hasKey_ofOptStrList (k : String) (o : Option (List String)) :
    hasKey k (Json.ofOptStrList o) = false := by
  cases o <;> simp [Json.ofOptStrList]

@[simp] theorem hasKey_ofOptEmb (k : String) (o : Option (List ℚ)) :
    hasKey k (Json.ofOptEmb o) = false := by
  cases o <;> simp [Json.ofOptEmb, List.any_map, Function.comp_def]

/-- JSON rendering of a full resume row, as returned by the fallback path. -/
def renderResume (r : Resume) : Json :=
  .obj (JsonObj.ofList
    [("id", .num r.id), ("file_name", .str r.file_name),
     ("candidate_name", .ofOptStr r.candidate_name), ("email", .ofOptStr r.email),
     ("phone", .ofOptStr r.phone), ("experience_years", .ofOptInt r.experience_years),
     ("skills", .ofOptStrList r.skills), ("education", .ofOptStr r.education),
     ("raw_text", .str r.raw_text), ("embedding", .ofOptEmb r.embedding)])

/-- JSON rendering of one fallback-path entry. -/
def renderFrontMatch (m : FrontMatch) : Json :=
  .obj (JsonObj.ofList
    [("resume", renderResume m.resume), ("similarity_score", .num m.similarity_score),
     ("matched_skills", .ofStrList m.matched_skills),
     ("highlights", .ofStrList m.highlights)])

/-- JSON rendering of the resume object of a backend-path entry. -/
def renderBackendResumeView (v : BackendResumeView) : Json :=
  .obj (JsonObj.ofList
    [("id", .num v.id), ("candidate_name", .ofOptStr v.candidate_name),
     ("email", .ofOptStr v.email), ("file_name", .ofOptStr v.file_name),
     ("experience_years", .ofOptInt v.experience_years),
     ("skills", .ofOptStrList v.skills), ("education", .ofOptStr v.education)])

/-- JSON rendering of one backend-path formatted entry. -/
def renderBackendMatch (m : BackendMatch) : Json :=
  .obj (JsonObj.ofList
    [("resume", renderBackendResumeView m.resume),
     ("similarity_score", .num m.similarity_score),
     ("matched_skills", .ofStrList m.matched_skills),
     ("highlights", .ofStrList m.highlights)])

/-- JSON rendering of the response body the route sends with
`NextResponse.json`. -/
def renderResponse : RouteResponse → Json
  | .err _ msg => .obj (JsonObj.ofList [("error", .str msg)])
  | .okFallback results => .arr (JsonArr.ofList (results.map renderFrontMatch))
  | .okBackend results => .arr (JsonArr.ofList (results.map renderBackendMatch))

/-- Field names that would mark which strategy produced a response. -/
def strategyKeys : List String :=
  ["strategy", "strategyUsed", "strategy_used", "strategyTag", "fallback", "flag"]

theorem hasKey_strategy_renderResume (k : String) (hk : k ∈ strategyKeys)
    (r : Resume) : hasKey k (renderResume r) = false := by
  fin_cases hk <;> simp [renderResume]

theorem hasKey_strategy_renderFrontMatch (k : String) (hk : k ∈ strategyKeys)
    (m : FrontMatch) : hasKey k (renderFrontMatch m) = false := by
  have hres := hasKey_strategy_renderResume k hk m.resume
  fin_cases hk <;> simp_all [renderFrontMatch]

theorem hasKey_strategy_renderBackendResumeView (k : String) (hk : k ∈ strategyKeys)
    (v : BackendResumeView) : hasKey k (renderBackendResumeView v) = false := by
  fin_cases hk <;> simp [renderBackendResumeView]

theorem hasKey_strategy_renderBackendMatch (k : String) (hk : k ∈ strategyKeys)
    (m : BackendMatch) : hasKey k (renderBackendMatch m) = false := by
  have hres := hasKey_strategy_renderBackendResumeView k hk m.resume
  fin_cases hk <;> simp_all [renderBackendMatch]

theorem hasKey_strategy_renderResponse (k : String) (hk : k ∈ strategyKeys)
    (resp : RouteResponse) : hasKey k (renderResponse resp) = false := by
  cases resp with
  | err status msg =>
    fin_cases hk <;> simp [renderResponse]
  | okFallback results =>
    simp only [renderResponse, hasKey_arr, hasKeyArr_ofList]
    rw [List.any_eq_false]
    intro j hj
    obtain ⟨m, hm, rfl⟩ := List.mem_map.mp hj
    simp [hasKey_strategy_renderFrontMatch k hk m]
  | okBackend results =>
    simp only [renderResponse, hasKey_arr, hasKeyArr_ofList]
    rw [List.any_eq_false]
    intro j hj
    obtain ⟨m, hm, rfl⟩ := List.mem_map.mp hj
    simp [hasKey_strategy_renderBackendMatch k hk m]


/-- C6 (amended): an array response is produced wholly by one strategy
(entirely the fallback computation, exactly when the backend is
unavailable, or entirely the backend results), so scores of different
strategies are never mixed; but the response JSON carries no
strategy-identifying field: the fallback is only logged server-side. -/
theorem C6_amended (cosSim : List ℚ → List ℚ → ℚ) (backend : Option BackendResp)
    (insertFails : Bool) (resumesError : Option String) (db : Db) (jdId : Nat) :
    (∀ k ∈ strategyKeys,
      hasKey k (renderResponse
        (matchRoute cosSim backend insertFails resumesError db jdId).1) = false) ∧
    (∀ results, (matchRoute cosSim backend insertFails resumesError db jdId).1 =
        .okFallback results →
      backend = none ∧ ∃ jd, db.job_descriptions.find? (fun j => j.id == jdId) = some jd ∧
        results = matchResults cosSim jd db.resumes) ∧
    (∀ results, (matchRoute cosSim backend insertFails resumesError db jdId).1 =
        .okBackend results →
      ∃ bd, backend = some bd ∧ bd.success = true ∧
        results = bd.results.map formatBackendRes) := by
  refine ⟨fun k hk => hasKey_strategy_renderResponse k hk _, ?_, ?_⟩
  · intro results h
    cases hfind : db.job_descriptions.find? (fun j => j.id == jdId) with
    | none => simp [matchRoute, hfind] at h
    | some jd =>
      cases resumesError with
      | some msg => simp [matchRoute, hfind] at h
      | none =>
        cases backend with
        | none =>
          simp [matchRoute, hfind] at h
          exact ⟨rfl, jd, rfl, h.symm⟩
        | some bd =>
          cases hs : bd.success with
          | true => simp [matchRoute, hfind, hs] at h
          | false => simp [matchRoute, hfind, hs] at h
  · intro results h
    cases hfind : db.job_descriptions.find? (fun j => j.id == jdId) with
    | none => simp [matchRoute, hfind] at h
    | some jd =>
      cases resumesError with
      | some msg => simp [matchRoute, hfind] at h
      | none =>
        cases backend with
        | none => simp [matchRoute, hfind] at h
        | some bd =>
          cases hs : bd.success with
          | true =>
            simp [matchRoute, hfind, hs] at h
            exact ⟨bd, rfl, hs, h.symm⟩
          | false => simp [matchRoute, hfind, hs] at h

/-- C6 counterexample: a concrete fallback-path response is the fallback
ranking, yet its JSON contains no strategyUsed, strategy or fallback
key: the caller is not told which strategy produced the scores. -/
theorem C6_cex :
    (matchRoute (fun _ _ => 1) none false none dbW 7).1 =
      .okFallback (matchResults (fun _ _ => 1) jdW dbW.resumes) ∧
    hasKey "strategyUsed"
      (renderResponse (matchRoute (fun _ _ => 1) none false none dbW 7).1) = false ∧
    hasKey "strategy"
      (renderResponse (matchRoute (fun _ _ => 1) none false none dbW 7).1) = false ∧
    hasKey "fallback"
      (renderResponse (matchRoute (fun _ _ => 1) none false none dbW 7).1) = false := by
  refine ⟨rfl, ?_, ?_, ?_⟩ <;> decide

/-- C6 witness for the amended claim on a concrete run. -/
theorem C6_witness :
    hasKey "strategyUsed"
      (renderResponse (matchRoute (fun _ _ => 1) none false none dbW 7).1) = false :=
  (C6_amended (fun _ _ => 1) none false none dbW 7).1 "strategyUsed" (by decide)

end ATS
